import Mathlib

/-!
Verification of the steam-microtransaction-api route layer
(`src/api/routes.ts`).

The repository ships two near-duplicate versions of the routes module in
the same source file; the specification's §2 explicitly excludes the
"duplicate/near-duplicate route files" as plumbing, so the complete,
typed first version (lines 1-129) is the one embedded here.  Its
handlers are pure request-to-response functions once the environment
(catalog file read outcome, upstream call outcome, configuration) is
made an explicit argument, which is how they are modelled below.
-/

namespace SteamApi

/-- A JavaScript value as it can appear in a parsed JSON request body.
`object` stands for any non-primitive value (object or array), which is
always truthy; `nan` is the numeric NaN value. -/
inductive JsValue where
  | undef
  | null
  | bool (b : Bool)
  | num (n : Int)
  | nan
  | str (s : String)
  | object
deriving DecidableEq, Repr

/-- JavaScript truthiness: `undefined`, `null`, `false`, `0`, `NaN` and
the empty string are falsy; everything else is truthy.  This is the
test `!req.body[field]` performs (negated). -/
def JsValue.truthy : JsValue → Bool
  | .undef => false
  | .null => false
  | .bool b => b
  | .num n => n != 0
  | .nan => false
  | .str s => s != ""
  | .object => true

/-- A request body: a key-value record, first binding wins. -/
def Body := List (String × JsValue)

/-- `req.body[field]`: a key absent from the body reads as `undefined`. -/
def bodyGet (b : Body) (field : String) : JsValue :=
  match b with
  | [] => .undef
  | (k, v) :: rest => if k = field then v else bodyGet rest field

/-- An item record of the price catalog (`products.json` entry):
`{ id, price }`. -/
structure Product where
  id : Int
  price : Int
deriving DecidableEq, Repr

/-- A response body, one constructor per JSON shape the routes file can
emit. -/
inductive RespBody where
  /-- the empty body sent by `res.send('')` -/
  | empty
  /-- `{status: true}` from the health route -/
  | statusTrue
  /-- `{error: <msg>}` from the missing-field validator -/
  | errorField (msg : String)
  /-- `{success: false, message: <msg>}` -/
  | failMessage (msg : String)
  /-- `{success: true, products: [...]}` -/
  | productList (ps : List Product)
  /-- `{success: true, product: {...}}` -/
  | productOne (p : Product)
  /-- `{success: true, data: <upstream payload>}` -/
  | assetData (d : String)
  /-- `{error: 500, message, stack}` from the error middleware -/
  | serverError (message : String) (stack : Option String)
deriving DecidableEq, Repr

/-- An HTTP response: status code and body. -/
structure HttpResponse where
  status : Nat
  body : RespBody
deriving DecidableEq, Repr

/-- An outbound call made by a handler while serving one request. -/
inductive UpstreamCall where
  /-- `axios.get` to `ISteamEconomy/GetAssetPrices/v1` with query
  parameters `key`, `appid`, `currency` -/
  | assetPrices (key : String) (appid : String) (currency : String)
  /-- any partner-API call made by a controller stage -/
  | partner (path : String) (params : List (String × String))
deriving DecidableEq, Repr

/-- What serving one request produced: the response sent and the list of
outbound (partner/upstream) calls attempted, in order. -/
structure Outcome where
  response : HttpResponse
  upstreamCalls : List UpstreamCall
deriving DecidableEq, Repr

/-- Result of one validator middleware run: either a response was sent
(short-circuit) or `next()` was called. -/
inductive ValidationStep where
  | reject (resp : HttpResponse)
  | pass
deriving DecidableEq, Repr

/-- `handleMissingFields` (routes.ts lines 9-18): walk the field list in
order; on the first field whose body value is falsy, answer
400 `{error: "Missing field: <name>"}`; otherwise call `next()`. -/
def handleMissingFields (fields : List String) (body : Body) : ValidationStep :=
  match fields with
  | [] => .pass
  | f :: fs =>
    if (bodyGet body f).truthy then handleMissingFields fs body
    else .reject ⟨400, .errorField ("Missing field: " ++ f)⟩

/-- The five lifecycle operations that carry a required-field validator. -/
inductive LifecycleOp where
  | getReliableUserInfo
  | checkAppOwnership
  | initPurchase
  | finalizePurchase
  | checkPurchaseStatus
deriving DecidableEq, Repr

/-- The field list each validator is built with (routes.ts lines 21-32):
`validateGetReliableUserInfo`, `validateCheckAppOwnership`,
`validateFinalizePurchase`, `validateCheckPurchaseStatus`,
`validateInitPurchase`. -/
def requiredFields : LifecycleOp → List String
  | .getReliableUserInfo => ["steamId"]
  | .checkAppOwnership => ["steamId", "appId"]
  | .finalizePurchase => ["appId", "orderId"]
  | .checkPurchaseStatus => ["appId", "orderId", "transId"]
  | .initPurchase =>
    ["appId", "category", "itemDescription", "itemId", "orderId", "steamId"]

/-- A lifecycle route (`router.post(path, validator, controller)`): the
validator middleware runs first; only when it passes does the controller
stage (`next`, abstract here since `steam.controller` is an external
module) see the request.  A validator rejection sends the 400 itself and
makes no outbound call. -/
def runLifecycle (op : LifecycleOp) (next : Body → Outcome) (body : Body) : Outcome :=
  match handleMissingFields (requiredFields op) body with
  | .reject resp => ⟨resp, []⟩
  | .pass => next body

/-- Outcome of `fs.readFile` on `products.json` followed by
`JSON.parse`: the read can fail, the parse can fail, or a catalog list
is obtained.  Catalog records are the `{id, price}` entries the file
holds. -/
inductive CatalogRead where
  | readErr
  | parseErr
  | ok (products : List Product)
deriving DecidableEq, Repr

/-- The whitespace characters `ToNumber` strips from a string before
parsing. -/
def isJsSpace (c : Char) : Bool :=
  c = ' ' || c = '\t' || c = '\n' || c = '\r' || c = '\x0b' || c = '\x0c'
    || c = '\u00A0' || c = '\uFEFF'

/-- Strip leading and trailing JS whitespace. -/
def trimJs (l : List Char) : List Char :=
  ((l.dropWhile isJsSpace).reverse.dropWhile isJsSpace).reverse

/-- Value of a decimal digit character. -/
def digitVal (c : Char) : Option Nat :=
  if c.isDigit then some (c.toNat - 48) else none

/-- Value of a hexadecimal digit character. -/
def hexVal (c : Char) : Option Nat :=
  if c.isDigit then some (c.toNat - 48)
  else if 'a' ≤ c && c ≤ 'f' then some (c.toNat - 87)
  else if 'A' ≤ c && c ≤ 'F' then some (c.toNat - 55)
  else none

/-- Value of an octal digit character. -/
def octVal (c : Char) : Option Nat :=
  if '0' ≤ c && c ≤ '7' then some (c.toNat - 48) else none

/-- Value of a binary digit character. -/
def binVal (c : Char) : Option Nat :=
  if c = '0' then some 0 else if c = '1' then some 1 else none

/-- Read a whole digit string in the given radix; any non-digit
character makes the literal invalid (NaN). -/
def parseRadix (radix : Nat) (val : Char → Option Nat) :
    Nat → List Char → Option Nat
  | acc, [] => some acc
  | acc, c :: cs =>
    match val c with
    | some d => parseRadix radix val (acc * radix + d) cs
    | none => none

/-- Same, but at least one digit is required. -/
def parseRadixNonempty (radix : Nat) (val : Char → Option Nat)
    (l : List Char) : Option Nat :=
  match l with
  | [] => none
  | _ => parseRadix radix val 0 l

/-- Consume a maximal run of decimal digits: value, digit count and the
remaining characters. -/
def takeDigits : Nat → Nat → List Char → Nat × Nat × List Char
  | acc, n, [] => (acc, n, [])
  | acc, n, c :: cs =>
    match digitVal c with
    | some d => takeDigits (acc * 10 + d) (n + 1) cs
    | none => (acc, n, c :: cs)

/-- An `ExponentPart` closing a decimal literal: absent (`0`) or
`e`/`E`, an optional sign and at least one digit; anything else makes
the literal invalid. -/
def parseExponentPart : List Char → Option Int
  | [] => some 0
  | c :: cs =>
    if c = 'e' || c = 'E' then
      match cs with
      | '+' :: ds => (parseRadixNonempty 10 digitVal ds).map (fun n => (n : Int))
      | '-' :: ds => (parseRadixNonempty 10 digitVal ds).map (fun n => -(n : Int))
      | ds => (parseRadixNonempty 10 digitVal ds).map (fun n => (n : Int))
    else none

/-- A `StrUnsignedDecimalLiteral` without the `Infinity` case: digits,
an optional fraction and an optional exponent, with at least one digit
overall.  The value is returned as mantissa and power-of-ten scale. -/
def parseUnsignedDecimal (l : List Char) : Option (Nat × Int) :=
  let (ip, ipLen, r1) := takeDigits 0 0 l
  match r1 with
  | '.' :: r2 =>
    let (fp, fpLen, r3) := takeDigits 0 0 r2
    if ipLen = 0 && fpLen = 0 then none
    else (parseExponentPart r3).map
      (fun e => (ip * 10 ^ fpLen + fp, e - (fpLen : Int)))
  | _ =>
    if ipLen = 0 then none
    else (parseExponentPart r1).map (fun e => (ip, e))

/-- The characters of the `Infinity` literal. -/
def infinityChars : List Char := ['I', 'n', 'f', 'i', 'n', 'i', 't', 'y']

/-- The integer `m * 10 ^ scale` when that value is an integer, `none`
when it is a non-integer finite value. -/
def scaledToInt (m : Nat) (scale : Int) : Option Int :=
  if 0 ≤ scale then some ((m : Int) * 10 ^ scale.toNat)
  else if m % 10 ^ scale.natAbs = 0 then some ((m / 10 ^ scale.natAbs : Nat) : Int)
  else none

/-- An unsigned decimal literal or `Infinity`, reduced to `some n` when
its value is the integer `n`; `Infinity` and non-integer finite values
yield `none`, like NaN (see `jsNumber`). -/
def parseUnsignedToInt (l : List Char) (neg : Bool) : Option Int :=
  if l = infinityChars then none
  else
    match parseUnsignedDecimal l with
    | some (m, scale) =>
      (scaledToInt m scale).map (fun v => if neg then -v else v)
    | none => none

/-- A `StrDecimalLiteral`: an optional sign, then an unsigned decimal
literal or `Infinity`. -/
def parseSignedDecimal (l : List Char) : Option Int :=
  match l with
  | '+' :: rest => parseUnsignedToInt rest false
  | '-' :: rest => parseUnsignedToInt rest true
  | _ => parseUnsignedToInt l false

/-- A trimmed string numeric literal: empty is `0`; `0x`/`0o`/`0b`
literals take their radix (and admit no sign, as in the grammar);
everything else is a signed decimal literal. -/
def jsNumberCore : List Char → Option Int
  | [] => some 0
  | '0' :: 'x' :: rest => (parseRadixNonempty 16 hexVal rest).map (fun n => (n : Int))
  | '0' :: 'X' :: rest => (parseRadixNonempty 16 hexVal rest).map (fun n => (n : Int))
  | '0' :: 'o' :: rest => (parseRadixNonempty 8 octVal rest).map (fun n => (n : Int))
  | '0' :: 'O' :: rest => (parseRadixNonempty 8 octVal rest).map (fun n => (n : Int))
  | '0' :: 'b' :: rest => (parseRadixNonempty 2 binVal rest).map (fun n => (n : Int))
  | '0' :: 'B' :: rest => (parseRadixNonempty 2 binVal rest).map (fun n => (n : Int))
  | l => parseSignedDecimal l

/-- JavaScript `Number(s)` for a query-string value, as the catalog
comparison `product.id === Number(itemId)` consumes it.  The
ECMAScript string grammar is implemented: whitespace is trimmed, the
empty string coerces to `0`, and a signed decimal literal (with
optional fraction and exponent), a hex/octal/binary literal or
`Infinity` takes its value — so `"5.0"`, `" 5"`, `"+5"`, `"5e2"`,
`"50e-1"` and `"0x10"` all coerce to integers.  The result is `some n`
when the coerced value is the integer `n` and `none` otherwise; `none`
covers NaN, `±Infinity` and non-integer finite values alike, all of
which strict-equal no integer catalog id, so the comparison is
preserved.  Arithmetic is exact: binary64 rounding of values whose
decimal expansion exceeds the double mantissa is not modelled. -/
def jsNumber (s : String) : Option Int :=
  jsNumberCore (trimJs s.toList)

/-- Truthiness of an optional query-string value: present and
non-empty.  This is the `if (itemId)` / `if (!currency)` test. -/
def queryTruthy : Option String → Bool
  | none => false
  | some s => s != ""

/-- The `GET /GetItemPrices` handler (routes.ts lines 59-92), with the
file-read-and-parse outcome an explicit argument.  On read error:
500 `Error retrieving prices.`; on parse error (the `catch` block):
500 `Error processing data.`; with a truthy `itemId`: find the first
product whose `id` strictly equals `Number(itemId)`, answering 404
`Item not found` when none matches; otherwise the full product list.
No outbound call is ever made. -/
def getItemPrices (cat : CatalogRead) (itemId : Option String) : Outcome :=
  match cat with
  | .readErr => ⟨⟨500, .failMessage "Error retrieving prices."⟩, []⟩
  | .parseErr => ⟨⟨500, .failMessage "Error processing data."⟩, []⟩
  | .ok products =>
    if queryTruthy itemId then
      match itemId with
      | some s =>
        match products.find? (fun p => jsNumber s == some p.id) with
        | some item => ⟨⟨200, .productOne item⟩, []⟩
        | none => ⟨⟨404, .failMessage "Item not found"⟩, []⟩
      | none => ⟨⟨200, .productList products⟩, []⟩
    else ⟨⟨200, .productList products⟩, []⟩

/-- Process configuration: `constants.webkey`, the confidential Steam
web API key. -/
structure Config where
  webkey : String
deriving DecidableEq, Repr

/-- The environment a request is served against: the catalog read
outcome and the reply of the asset-prices upstream endpoint
(`Except.error` models a transport/HTTP failure, the payload is kept
abstract as a string). -/
structure World where
  catalog : CatalogRead
  assetPricesReply : Except Unit String
deriving Repr

/-- The `GET /GetAssetPrices` handler (routes.ts lines 94-116).  A falsy
`currency` is answered 400 `Currency is required.` before any call;
otherwise one `axios.get` to the partner API is made carrying the
configured key, the fixed appid `1432860` and the currency, and its
success or failure is relayed as 200/500. -/
def getAssetPrices (cfg : Config) (w : World) (currency : Option String) : Outcome :=
  match currency with
  | none => ⟨⟨400, .failMessage "Currency is required."⟩, []⟩
  | some c =>
    if c = "" then ⟨⟨400, .failMessage "Currency is required."⟩, []⟩
    else
      let call := UpstreamCall.assetPrices cfg.webkey "1432860" c
      match w.assetPricesReply with
      | .ok d => ⟨⟨200, .assetData d⟩, [call]⟩
      | .error _ => ⟨⟨500, .failMessage "Error fetching asset prices."⟩, [call]⟩

/-- What the central error middleware can see of a thrown exception:
its `message` (a string, possibly empty) and its `stack`. -/
structure ExnInfo where
  message : String
  stack : String
deriving DecidableEq, Repr

/-- The error-handling middleware (routes.ts lines 120-126): every
exception is answered 500 with `{error: 500, message, stack}`, where
`message` is the exception's message or the fallback when that is
falsy, and `stack` is included exactly when `NODE_ENV` is
`development`. -/
def errorMiddleware (nodeEnv : String) (e : ExnInfo) : HttpResponse :=
  ⟨500, .serverError
    (if e.message = "" then "Something went wrong" else e.message)
    (if nodeEnv = "development" then some e.stack else none)⟩

/-- HTTP methods. -/
inductive Method where
  | GET
  | POST
  | PUT
  | DELETE
  | PATCH
deriving DecidableEq, Repr

/-- The routes the router registers. -/
inductive RouteKey where
  | root
  | lifecycle (op : LifecycleOp)
  | itemPrices
  | assetPrices
deriving DecidableEq, Repr

/-- The routing table (routes.ts lines 37-116): which registered route,
if any, a method-and-path pair reaches.  Paths are matched verbatim as
registered. -/
def routeFor : Method → String → Option RouteKey
  | .GET, "/" => some .root
  | .POST, "/GetReliableUserInfo" => some (.lifecycle .getReliableUserInfo)
  | .POST, "/CheckAppOwnership" => some (.lifecycle .checkAppOwnership)
  | .POST, "/InitPurchase" => some (.lifecycle .initPurchase)
  | .POST, "/FinalizePurchase" => some (.lifecycle .finalizePurchase)
  | .POST, "/CheckPurchaseStatus" => some (.lifecycle .checkPurchaseStatus)
  | .GET, "/GetItemPrices" => some .itemPrices
  | .GET, "/GetAssetPrices" => some .assetPrices
  | _, _ => none

/-- An inbound HTTP request: method, path, parsed JSON body and query
parameters. -/
structure SteamRequest where
  method : Method
  path : String
  body : Body
  query : List (String × String)

/-- `req.query.<name>`: the value of a query parameter, when present. -/
def queryGet (q : List (String × String)) (name : String) : Option String :=
  match q with
  | [] => none
  | (k, v) :: rest => if k = name then some v else queryGet rest name

/-- Serving one request through the mounted router: a matched route runs
its handler (lifecycle routes run the validator then the abstract
controller stage `next`); an unmatched request falls through to the
final middleware, 404 with an empty body (routes.ts line 128). -/
def handleRequest (cfg : Config) (w : World)
    (next : LifecycleOp → Body → Outcome) (req : SteamRequest) : Outcome :=
  match routeFor req.method req.path with
  | some .root => ⟨⟨200, .statusTrue⟩, []⟩
  | some (.lifecycle op) => runLifecycle op (next op) req.body
  | some .itemPrices => getItemPrices w.catalog (queryGet req.query "itemId")
  | some .assetPrices => getAssetPrices cfg w (queryGet req.query "currency")
  | none => ⟨⟨404, .empty⟩, []⟩

/-! ## Helper lemmas -/

theorem hmf_pass_of_all_truthy (fields : List String) (b : Body)
    (h : ∀ f ∈ fields, (bodyGet b f).truthy = true) :
    handleMissingFields fields b = .pass := by
  induction fields with
  | nil => rfl
  | cons f fs ih =>
    have hf := h f (List.mem_cons_self f fs)
    simp only [handleMissingFields, hf, if_true]
    exact ih (fun g hg => h g (List.mem_cons_of_mem f hg))

theorem hmf_reject_first (pre post : List String) (f : String) (b : Body)
    (hpre : ∀ g ∈ pre, (bodyGet b g).truthy = true)
    (hf : (bodyGet b f).truthy = false) :
    handleMissingFields (pre ++ f :: post) b =
      .reject ⟨400, .errorField ("Missing field: " ++ f)⟩ := by
  induction pre with
  | nil => simp [handleMissingFields, hf]
  | cons g rest ih =>
    have hg := hpre g (List.mem_cons_self g rest)
    simp only [List.cons_append, handleMissingFields, hg, if_true]
    exact ih (fun x hx => hpre x (List.mem_cons_of_mem g hx))

theorem hmf_congr (fields : List String) (b b' : Body)
    (h : ∀ f ∈ fields, (bodyGet b f).truthy = (bodyGet b' f).truthy) :
    handleMissingFields fields b = handleMissingFields fields b' := by
  induction fields with
  | nil => rfl
  | cons f fs ih =>
    have hf := h f (List.mem_cons_self f fs)
    simp only [handleMissingFields, hf]
    by_cases hb : (bodyGet b' f).truthy
    · simp only [hb, if_true]
      exact ih (fun g hg => h g (List.mem_cons_of_mem f hg))
    · rw [if_neg hb, if_neg hb]

theorem bodyGet_cons_ne (k : String) (v : JsValue) (b : Body) (f : String)
    (h : k ≠ f) : bodyGet ((k, v) :: b) f = bodyGet b f := by
  simp [bodyGet, h]

/-- C1: for every lifecycle operation with a required-field set, a
request body in which some required field is absent or falsy is
answered 400 `{error: "Missing field: <name>"}` naming the first such
field in evaluation order, and the controller stage (hence any
partner/upstream call) is never reached; when every required field is
truthy, the outcome is exactly that of the next stage. -/
theorem lifecycle_missing_field_gate (op : LifecycleOp)
    (next : Body → Outcome) (body : Body) :
    ((∀ f ∈ requiredFields op, (bodyGet body f).truthy = true) →
      runLifecycle op next body = next body)
    ∧ (∀ pre f post, requiredFields op = pre ++ f :: post →
      (∀ g ∈ pre, (bodyGet body g).truthy = true) →
      (bodyGet body f).truthy = false →
      runLifecycle op next body =
        ⟨⟨400, .errorField ("Missing field: " ++ f)⟩, []⟩) := by
  constructor
  · intro h
    unfold runLifecycle
    rw [hmf_pass_of_all_truthy _ _ h]
  · intro pre f post heq hpre hf
    unfold runLifecycle
    rw [heq, hmf_reject_first pre post f body hpre hf]

/-- Witness for C1: an InitPurchase body carrying only a truthy `appId`
is rejected naming `category`, the first missing field. -/
theorem lifecycle_missing_field_gate_witness :
    runLifecycle .initPurchase (fun _ => ⟨⟨200, .statusTrue⟩, []⟩)
        [("appId", .str "480")] =
      ⟨⟨400, .errorField "Missing field: category"⟩, []⟩ :=
  (lifecycle_missing_field_gate .initPurchase _ _).2
    ["appId"] "category" ["itemDescription", "itemId", "orderId", "steamId"]
    (by decide) (by decide) (by decide)

/-- C2: the required-field list of each operation is exactly as the
spec table lists it, in that order, and the validator's outcome depends
on the body only through the truthiness of the required fields (so no
type or range validation takes place). -/
theorem required_field_sets (fields : List String) (b b' : Body) :
    requiredFields .getReliableUserInfo = ["steamId"]
    ∧ requiredFields .checkAppOwnership = ["steamId", "appId"]
    ∧ requiredFields .initPurchase =
        ["appId", "category", "itemDescription", "itemId", "orderId", "steamId"]
    ∧ requiredFields .finalizePurchase = ["appId", "orderId"]
    ∧ requiredFields .checkPurchaseStatus = ["appId", "orderId", "transId"]
    ∧ ((∀ f ∈ fields, (bodyGet b f).truthy = (bodyGet b' f).truthy) →
        handleMissingFields fields b = handleMissingFields fields b') :=
  ⟨rfl, rfl, rfl, rfl, rfl, hmf_congr fields b b'⟩

/-- Witness for C2: a numeric and a string `steamId` are both truthy,
so the validator treats the two bodies alike. -/
theorem required_field_sets_witness :
    handleMissingFields ["steamId"] [("steamId", .num 7)] =
      handleMissingFields ["steamId"] [("steamId", .str "x")] :=
  (required_field_sets ["steamId"]
    [("steamId", .num 7)] [("steamId", .str "x")]).2.2.2.2.2 (by decide)

/-- C9: the validator's outcome is determined solely by the values of
the listed required fields — bodies agreeing on each required field get
the same result — and prepending an extra field whose name is not in
the required list never changes the result. -/
theorem validator_depends_only_on_required_fields (fields : List String)
    (b b' : Body) (k : String) (v : JsValue) :
    ((∀ f ∈ fields, bodyGet b f = bodyGet b' f) →
      handleMissingFields fields b = handleMissingFields fields b')
    ∧ (k ∉ fields →
      handleMissingFields fields ((k, v) :: b) = handleMissingFields fields b) := by
  constructor
  · intro h
    exact hmf_congr _ _ _ (fun f hf => by rw [h f hf])
  · intro hk
    exact hmf_congr _ _ _ (fun f hf => by
      rw [bodyGet_cons_ne _ _ _ _ (fun he => hk (by rw [he]; exact hf))])

/-- Witness for C9: an unexpected `extra` field does not change the
validator's verdict. -/
theorem validator_depends_only_on_required_fields_witness :
    handleMissingFields ["steamId"] [("extra", .object), ("steamId", .str "s")] =
      handleMissingFields ["steamId"] [("steamId", .str "s")] :=
  (validator_depends_only_on_required_fields ["steamId"]
    [("steamId", .str "s")] [("steamId", .str "s")] "extra" .object).2 (by decide)

/-- C4 counterexample: a request that does provide the currency
parameter, with the empty-string value, is answered 400 with no
outbound call — the `if (!currency)` guard rejects it — contradicting
the claim that any provided currency triggers exactly one outbound
call. -/
theorem getAssetPrices_empty_currency_counterexample :
    getAssetPrices ⟨"webkey"⟩ ⟨.ok [], .ok "payload"⟩ (some "") =
      ⟨⟨400, .failMessage "Currency is required."⟩, []⟩
    ∧ (getAssetPrices ⟨"webkey"⟩ ⟨.ok [], .ok "payload"⟩ (some "")).upstreamCalls
        = [] := by
  constructor <;> rfl

/-- C4 amended: a missing or empty currency is answered 400 with no
outbound call; a non-empty currency triggers exactly one outbound call
to the partner API carrying the configured key and the fixed
application id `1432860`. -/
theorem getAssetPrices_call_behavior (cfg : Config) (w : World)
    (currency : Option String) (c : String) :
    (queryTruthy currency = false →
      getAssetPrices cfg w currency =
        ⟨⟨400, .failMessage "Currency is required."⟩, []⟩)
    ∧ (currency = some c → c ≠ "" →
      (getAssetPrices cfg w currency).upstreamCalls =
        [.assetPrices cfg.webkey "1432860" c]) := by
  constructor
  · intro ht
    match currency with
    | none => rfl
    | some s =>
      have hs : s = "" := by simpa [queryTruthy] using ht
      simp [getAssetPrices, hs]
  · intro hc hne
    subst hc
    simp only [getAssetPrices, if_neg hne]
    match w.assetPricesReply with
    | .ok d => rfl
    | .error u => rfl

/-- Witness for the amended C4: an absent currency is answered 400 with
no call; currency `usd` produces exactly one call carrying the key and
the fixed appid. -/
theorem getAssetPrices_call_behavior_witness :
    getAssetPrices ⟨"webkey"⟩ ⟨.ok [], .ok "payload"⟩ none =
      ⟨⟨400, .failMessage "Currency is required."⟩, []⟩
    ∧ (getAssetPrices ⟨"webkey"⟩ ⟨.ok [], .ok "payload"⟩ (some "usd")).upstreamCalls
        = [.assetPrices "webkey" "1432860" "usd"] :=
  ⟨(getAssetPrices_call_behavior ⟨"webkey"⟩ ⟨.ok [], .ok "payload"⟩ none "usd").1
      (by decide),
   (getAssetPrices_call_behavior ⟨"webkey"⟩ ⟨.ok [], .ok "payload"⟩
      (some "usd") "usd").2 rfl (by decide)⟩

/-- C5: a POST to `/CheckPurchaseStatus` — capital C, as the spec's
interface table spells it — is matched by the router and dispatched
into the purchase-status pipeline, not to the unmatched-route 404
middleware; with appId, orderId and transId truthy in the body, the
controller stage serves the request. -/
theorem checkPurchaseStatus_route_dispatch (cfg : Config) (w : World)
    (next : LifecycleOp → Body → Outcome) (body : Body) :
    routeFor .POST "/CheckPurchaseStatus" = some (.lifecycle .checkPurchaseStatus)
    ∧ ((bodyGet body "appId").truthy = true →
      (bodyGet body "orderId").truthy = true →
      (bodyGet body "transId").truthy = true →
      handleRequest cfg w next ⟨.POST, "/CheckPurchaseStatus", body, []⟩ =
        next .checkPurchaseStatus body) := by
  refine ⟨rfl, ?_⟩
  intro h1 h2 h3
  have hall : ∀ f ∈ requiredFields .checkPurchaseStatus,
      (bodyGet body f).truthy = true := by
    intro f hf
    simp only [requiredFields, List.mem_cons, List.mem_singleton] at hf
    rcases hf with rfl | rfl | rfl | hf
    · exact h1
    · exact h2
    · exact h3
    · exact absurd hf (List.not_mem_nil f)
  show runLifecycle .checkPurchaseStatus (next .checkPurchaseStatus) body =
    next .checkPurchaseStatus body
  unfold runLifecycle
  rw [hmf_pass_of_all_truthy _ _ hall]

/-- Witness for C5: a concrete POST /CheckPurchaseStatus request with
the three fields present reaches the controller stage. -/
theorem checkPurchaseStatus_route_dispatch_witness :
    handleRequest ⟨"webkey"⟩ ⟨.ok [], .ok "payload"⟩
        (fun _ _ => ⟨⟨200, .statusTrue⟩, []⟩)
        ⟨.POST, "/CheckPurchaseStatus",
          [("appId", .str "480"), ("orderId", .str "1000"),
           ("transId", .str "38TA")], []⟩ =
      ⟨⟨200, .statusTrue⟩, []⟩ :=
  (checkPurchaseStatus_route_dispatch ⟨"webkey"⟩ ⟨.ok [], .ok "payload"⟩
    (fun _ _ => ⟨⟨200, .statusTrue⟩, []⟩)
    [("appId", .str "480"), ("orderId", .str "1000"),
     ("transId", .str "38TA")]).2 (by decide) (by decide) (by decide)

/-- C6: a GET /GetItemPrices request whose catalog file read fails is
answered 500 `{success: false, message: "Error retrieving prices."}`,
and one whose content fails to parse as JSON is answered 500
`{success: false, message: "Error processing data."}`; in either case
the handler returns normally with no other outcome. -/
theorem getItemPrices_error_responses (cfg : Config)
    (u : Except Unit String) (next : LifecycleOp → Body → Outcome)
    (body : Body) (q : List (String × String)) :
    handleRequest cfg ⟨.readErr, u⟩ next ⟨.GET, "/GetItemPrices", body, q⟩ =
      ⟨⟨500, .failMessage "Error retrieving prices."⟩, []⟩
    ∧ handleRequest cfg ⟨.parseErr, u⟩ next ⟨.GET, "/GetItemPrices", body, q⟩ =
      ⟨⟨500, .failMessage "Error processing data."⟩, []⟩ :=
  ⟨rfl, rfl⟩

/-- C7: the central error middleware answers every exception with a 500
whose body is `{error: 500, message, stack}`: the message is the
exception's own message or the fixed fallback, and the stack field is
populated only when `NODE_ENV` is `development` — hence never in
production, and only in a non-production environment. -/
theorem error_middleware_shape (nodeEnv : String) (e : ExnInfo) :
    (errorMiddleware nodeEnv e).status = 500
    ∧ ∃ m st, (errorMiddleware nodeEnv e).body = .serverError m st
      ∧ (m = e.message ∨ m = "Something went wrong")
      ∧ (st = none ∨ st = some e.stack)
      ∧ (st ≠ none → nodeEnv ≠ "production")
      ∧ (nodeEnv = "production" → st = none) := by
  refine ⟨rfl,
    (if e.message = "" then "Something went wrong" else e.message),
    (if nodeEnv = "development" then some e.stack else none),
    rfl, ?_, ?_, ?_, ?_⟩
  · by_cases hm : e.message = "" <;> simp [hm]
  · by_cases hd : nodeEnv = "development" <;> simp [hd]
  · intro hst he
    rw [he] at hst
    simp at hst
  · intro he
    rw [he]
    rfl

/-- Witness for C7: in production the body carries the exception's
message and no stack. -/
theorem error_middleware_shape_witness :
    (errorMiddleware "production" ⟨"boom", "trace"⟩).status = 500 :=
  (error_middleware_shape "production" ⟨"boom", "trace"⟩).1

/-- C8: a request whose method-and-path pair matches no registered
route — whatever the HTTP method — is answered by the final middleware:
404 with an empty body and no outbound call. -/
theorem unmatched_route_404 (cfg : Config) (w : World)
    (next : LifecycleOp → Body → Outcome) (m : Method) (p : String)
    (body : Body) (q : List (String × String)) :
    routeFor m p = none →
    handleRequest cfg w next ⟨m, p, body, q⟩ = ⟨⟨404, .empty⟩, []⟩ := by
  intro h
  simp [handleRequest, h]

/-- Witness for C8: `PUT /InitPurchase` matches no registered route and
is answered 404 with an empty body. -/
theorem unmatched_route_404_witness :
    routeFor .PUT "/InitPurchase" = none
    ∧ handleRequest ⟨"webkey"⟩ ⟨.ok [], .ok "payload"⟩
        (fun _ _ => ⟨⟨200, .statusTrue⟩, []⟩)
        ⟨.PUT, "/InitPurchase", [], []⟩ = ⟨⟨404, .empty⟩, []⟩ :=
  ⟨rfl, unmatched_route_404 ⟨"webkey"⟩ ⟨.ok [], .ok "payload"⟩
    (fun _ _ => ⟨⟨200, .statusTrue⟩, []⟩) .PUT "/InitPurchase" [] [] rfl⟩


end SteamApi
